import Mathlib

/-!
Verification of the torrent-inspector repository.

The program (src/main.rs, src/torrent.rs) is a web service that receives an
uploaded BitTorrent metainfo file, deserializes it with serde_bencode into the
`Torrent`/`Info`/`File`/`Node` structs declared in src/torrent.rs, persists the
raw bytes on success, and answers with a two-variant `TorrentResponse`.

This development shallowly embeds the pipeline:
  * a bencode decoder (byte list to generic value tree).  The decoding code
    itself lives in the external serde_bencode crate and is not part of the
    repository sources, so the decoder here is modelled from the spec's
    grammar (section 4.1): integers, byte strings, lists, dictionaries,
    duplicate-key rejection, whole-buffer consumption, and a nesting cap.
  * a mapper from the generic tree to the Rust structs of src/torrent.rs,
    following the serde derive semantics of the struct declarations
    (field names and renames, serde(default), Option fields tolerating
    missing keys, unknown keys ignored, u64/u8/i64 range enforcement,
    UTF-8 validation for String fields, tuple structs from 2-element lists).
  * the request handler of src/main.rs (field search, parse, save, respond).

Bytes are modelled as Nat (with values < 256 on real inputs), buffers as
List Nat, and machine integers as Int/Nat with explicit range checks where
the Rust types enforce them.
-/

set_option maxRecDepth 100000

/-- Bytes of an ASCII string, used to write concrete buffers and key names. -/
def ascii (s : String) : List Nat := s.data.map (fun c => c.toNat)

/-- Error kinds of the bencode decoder.  Modelled from the spec: the decoder
is the serde_bencode crate, absent from src/; the spec (section 4.1) fixes
these kinds. -/
inductive DecodeError where
  | unexpectedEof
  | invalidInteger
  | invalidLength
  | duplicateKey
  | unterminatedContainer
  | trailingData
  | nestingTooDeep
deriving DecidableEq, Repr

/-- Generic bencode value tree (spec section 3, BencodeValue): integers,
byte strings, lists and dictionaries with byte-string keys. -/
inductive Bencode where
  | int : Int → Bencode
  | str : List Nat → Bencode
  | list : List Bencode → Bencode
  | dict : List (List Nat × Bencode) → Bencode

/-- ASCII decimal digit test. -/
def isDigit (c : Nat) : Bool := 48 ≤ c && c ≤ 57

/-- Split a buffer into its maximal leading run of ASCII digits and the rest. -/
def splitDigits : List Nat → List Nat × List Nat
  | [] => ([], [])
  | c :: r =>
    if isDigit c then (c :: (splitDigits r).1, (splitDigits r).2)
    else ([], c :: r)

/-- Numeric value of a list of ASCII digits. -/
def digitsVal (ds : List Nat) : Nat := ds.foldl (fun a c => a * 10 + (c - 48)) 0

/-- Modelled from the spec: integer token body after the leading i byte.
Optional minus sign, decimal digits, closing e; leading zeros are rejected
except for the literal zero, and -0 is rejected. -/
def parseIntBody (input : List Nat) : Except DecodeError (Int × List Nat) :=
  match input with
  | [] => .error .unexpectedEof
  | c :: r =>
    if c = 45 then
      match splitDigits r with
      | ([], _) => .error .invalidInteger
      | (_, []) => .error .unexpectedEof
      | (d0 :: ds, e :: rest) =>
        if e = 101 then
          if d0 = 48 then .error .invalidInteger
          else .ok (-(digitsVal (d0 :: ds) : Int), rest)
        else .error .invalidInteger
    else
      match splitDigits (c :: r) with
      | ([], _) => .error .invalidInteger
      | (_, []) => .error .unexpectedEof
      | (d0 :: ds, e :: rest) =>
        if e = 101 then
          if d0 = 48 ∧ ds ≠ [] then .error .invalidInteger
          else .ok ((digitsVal (d0 :: ds) : Int), rest)
        else .error .invalidInteger

/-- Modelled from the spec: byte-string token, decimal length, a colon, then
exactly that many raw bytes. -/
def parseStrTok (input : List Nat) : Except DecodeError (List Nat × List Nat) :=
  match splitDigits input with
  | ([], _) => .error .invalidLength
  | (_, []) => .error .unexpectedEof
  | (ds, c :: rest) =>
    if c = 58 then
      if digitsVal ds ≤ rest.length then
        .ok (rest.take (digitsVal ds), rest.drop (digitsVal ds))
      else .error .unexpectedEof
    else .error .invalidLength

/-- List-item loop of the decoder, parameterized by the value parser for the
current nesting level: parse values until a closing e byte. -/
def parseItemsF (pv : List Nat → Except DecodeError (Bencode × List Nat)) :
    Nat → List Nat → Except DecodeError (List Bencode × List Nat)
  | 0, _ => .error .unexpectedEof
  | f + 1, input =>
    match input with
    | [] => .error .unterminatedContainer
    | c :: r =>
      if c = 101 then .ok ([], r)
      else
        match pv (c :: r) with
        | .ok (v, rest) =>
          match parseItemsF pv f rest with
          | .ok (vs, rest') => .ok (v :: vs, rest')
          | .error e => .error e
        | .error e => .error e

/-- Dictionary-pair loop of the decoder: parse key-value pairs until a closing
e byte; keys are byte-string tokens and duplicate keys are a decode error. -/
def parsePairsF (pv : List Nat → Except DecodeError (Bencode × List Nat)) :
    Nat → List Nat → Except DecodeError (List (List Nat × Bencode) × List Nat)
  | 0, _ => .error .unexpectedEof
  | f + 1, input =>
    match input with
    | [] => .error .unterminatedContainer
    | c :: r =>
      if c = 101 then .ok ([], r)
      else
        match parseStrTok (c :: r) with
        | .ok (key, rest) =>
          match pv rest with
          | .ok (v, rest') =>
            match parsePairsF pv f rest' with
            | .ok (ps, rest'') =>
              if ps.any (fun p => p.1 == key) then .error .duplicateKey
              else .ok ((key, v) :: ps, rest'')
            | .error e => .error e
          | .error e => .error e
        | .error e => .error e

/-- Modelled from the spec: recursive-descent bencode value parser.  The first
argument is fuel (decremented on every recursive step, large enough at the top
call), the second the current container nesting depth, capped at 64. -/
def parseValue : Nat → Nat → List Nat → Except DecodeError (Bencode × List Nat)
  | 0, _, _ => .error .unexpectedEof
  | f + 1, d, input =>
    match input with
    | [] => .error .unexpectedEof
    | c :: r =>
      if c = 105 then
        match parseIntBody r with
        | .ok (n, rest) => .ok (.int n, rest)
        | .error e => .error e
      else if c = 108 then
        if 64 ≤ d then .error .nestingTooDeep
        else
          match parseItemsF (fun i => parseValue f (d + 1) i) f r with
          | .ok (vs, rest) => .ok (.list vs, rest)
          | .error e => .error e
      else if c = 100 then
        if 64 ≤ d then .error .nestingTooDeep
        else
          match parsePairsF (fun i => parseValue f (d + 1) i) f r with
          | .ok (ps, rest) => .ok (.dict ps, rest)
          | .error e => .error e
      else if isDigit c then
        match parseStrTok (c :: r) with
        | .ok (bs, rest) => .ok (.str bs, rest)
        | .error e => .error e
      else .error .invalidLength

/-- Modelled from the spec: whole-buffer decode.  Either a single value that
accounts for the entire buffer, or an error; leftover bytes are TrailingData. -/
def decode (buf : List Nat) : Except DecodeError Bencode :=
  match parseValue (2 * buf.length + 2) 0 buf with
  | .ok (v, []) => .ok v
  | .ok (_, _ :: _) => .error .trailingData
  | .error _e => .error _e

/-! ## Data model (src/torrent.rs)

The structs below mirror src/torrent.rs field for field.  Rust String fields
are modelled as UTF-8 byte lists (validity enforced by the mapper), u64 as
Nat, i64 as Int (ranges enforced by the mapper), u8 as Nat with range 0..255.
-/

/-- File (src/torrent.rs lines 120-130): length is u64, md5sum optional,
path a list of strings. -/
structure File where
  length : Nat
  md5sum : Option (List Nat)
  path : List (List Nat)

/-- Node (src/torrent.rs line 118): tuple struct of a host string and an
i64 port, deserialized from a 2-element bencode list. -/
structure Node where
  host : List Nat
  port : Int

/-- Info (src/torrent.rs lines 72-115).  Note that length and files are two
independent Option fields with serde(default); no exclusivity is enforced. -/
structure Info where
  name : List Nat
  length : Option Int
  piece_length : Int
  pieces : List Nat
  files : Option (List File)
  «private» : Option Nat
  md5sum : Option (List Nat)
  path : Option (List (List Nat))
  root_hash : Option (List Nat)

/-- Torrent (src/torrent.rs lines 6-70). -/
structure Torrent where
  announce : Option (List Nat)
  info : Info
  announce_list : List (List (List Nat))
  nodes : List Node
  creation_date : Option Nat
  comment : Option (List Nat)
  created_by : Option (List Nat)
  encoding : Option (List Nat)

/-! ## Mapper: serde derive semantics for the structs of src/torrent.rs -/

/-- UTF-8 continuation byte test. -/
def isCont (c : Nat) : Bool := 128 ≤ c && c ≤ 191

/-- UTF-8 validity of a byte list, as enforced by Rust String deserialization
(RFC 3629: no overlong forms, no surrogates, at most U+10FFFF). -/
def isUtf8 : List Nat → Bool
  | [] => true
  | c :: rest =>
    if c ≤ 127 then isUtf8 rest
    else if 194 ≤ c && c ≤ 223 then
      match rest with
      | c1 :: r => isCont c1 && isUtf8 r
      | [] => false
    else if 224 ≤ c && c ≤ 239 then
      match rest with
      | c1 :: c2 :: r =>
        (if c = 224 then 160 ≤ c1 && c1 ≤ 191
         else if c = 237 then 128 ≤ c1 && c1 ≤ 159
         else isCont c1) && isCont c2 && isUtf8 r
      | _ => false
    else if 240 ≤ c && c ≤ 244 then
      match rest with
      | c1 :: c2 :: c3 :: r =>
        (if c = 240 then 144 ≤ c1 && c1 ≤ 191
         else if c = 244 then 128 ≤ c1 && c1 ≤ 143
         else isCont c1) && isCont c2 && isCont c3 && isUtf8 r
      | _ => false
    else false

/-- Dictionary lookup by exact byte-string key (first match; the decoder has
already rejected duplicate keys). -/
def dictGet (ps : List (List Nat × Bencode)) (k : List Nat) : Option Bencode :=
  match ps with
  | [] => none
  | (k', v) :: r => if k' = k then some v else dictGet r k

/-- Raw byte string (serde_bytes Vec of u8): no UTF-8 requirement. -/
def asBytes : Bencode → Option (List Nat)
  | .str bs => some bs
  | _ => none

/-- Rust String from a bencode byte string: must be valid UTF-8. -/
def asText : Bencode → Option (List Nat)
  | .str bs => if isUtf8 bs then some bs else none
  | _ => none

/-- Rust i64 from a bencode integer (the wire format carries signed 64-bit
integers; out-of-range values never deserialize). -/
def asI64 : Bencode → Option Int
  | .int n => if -(2 ^ 63 : Int) ≤ n ∧ n < 2 ^ 63 then some n else none
  | _ => none

/-- Rust u64 from a bencode integer: negative values are rejected.  The wire
value is itself bounded by i64, so the accepted range is 0 ≤ n < 2^63. -/
def asU64 : Bencode → Option Nat
  | .int n => if 0 ≤ n ∧ n < 2 ^ 63 then some n.toNat else none
  | _ => none

/-- Rust u8 from a bencode integer: range 0..=255 enforced. -/
def asU8 : Bencode → Option Nat
  | .int n => if 0 ≤ n ∧ n ≤ 255 then some n.toNat else none
  | _ => none

/-- Rust Vec of T from a bencode list, element-wise. -/
def asListOf (f : Bencode → Option α) : Bencode → Option (List α)
  | .list vs => vs.mapM f
  | _ => none

/-- Field that tolerates absence (Option fields and serde(default) Options):
missing key gives none, present key must deserialize. -/
def optField (ps : List (List Nat × Bencode)) (k : List Nat)
    (f : Bencode → Option α) : Option (Option α) :=
  match dictGet ps k with
  | none => some none
  | some v => (f v).map some

/-- Field with serde(default) of a non-Option type: missing key gives the
default value, present key must deserialize. -/
def defField (ps : List (List Nat × Bencode)) (k : List Nat)
    (f : Bencode → Option α) (dflt : α) : Option α :=
  match dictGet ps k with
  | none => some dflt
  | some v => f v

/-- Required field: missing key is an error. -/
def reqField (ps : List (List Nat × Bencode)) (k : List Nat)
    (f : Bencode → Option α) : Option α :=
  match dictGet ps k with
  | none => none
  | some v => f v

def nameKey : List Nat := ascii ("name")
def lengthKey : List Nat := ascii ("length")
def pieceLengthKey : List Nat := ascii ("piece length")
def piecesKey : List Nat := ascii ("pieces")
def filesKey : List Nat := ascii ("files")
def privateKey : List Nat := ascii ("private")
def md5sumKey : List Nat := ascii ("md5sum")
def pathKey : List Nat := ascii ("path")
def rootHashKey : List Nat := ascii ("root hash")
def announceKey : List Nat := ascii ("announce")
def infoKey : List Nat := ascii ("info")
def announceListKey : List Nat := ascii ("announce-list")
def nodesKey : List Nat := ascii ("nodes")
def creationDateKey : List Nat := ascii ("creation date")
def commentKey : List Nat := ascii ("comment")
def createdByKey : List Nat := ascii ("created by")
def encodingKey : List Nat := ascii ("encoding")

/-- Deserialization of File (derive on src/torrent.rs lines 121-130):
length and path required, md5sum optional; unknown keys ignored. -/
def mapFile (v : Bencode) : Option File :=
  match v with
  | .dict ps => do
    let length ← reqField ps lengthKey asU64
    let md5sum ← optField ps md5sumKey asText
    let path ← reqField ps pathKey (asListOf asText)
    pure { length := length, md5sum := md5sum, path := path }
  | _ => none

/-- Deserialization of Node (derive on src/torrent.rs line 118): a tuple
struct, so exactly a 2-element bencode list of a string and an integer. -/
def mapNode (v : Bencode) : Option Node :=
  match v with
  | .list [h, p] => do
    let host ← asText h
    let port ← asI64 p
    pure { host := host, port := port }
  | _ => none

/-- Deserialization of Info (derive on src/torrent.rs lines 72-115):
name, piece length and pieces required; length, files, private, md5sum,
path and root hash all independently optional. -/
def mapInfo (v : Bencode) : Option Info :=
  match v with
  | .dict ps => do
    let name ← reqField ps nameKey asText
    let length ← optField ps lengthKey asI64
    let piece_length ← reqField ps pieceLengthKey asI64
    let pieces ← reqField ps piecesKey asBytes
    let files ← optField ps filesKey (asListOf mapFile)
    let priv ← optField ps privateKey asU8
    let md5sum ← optField ps md5sumKey asText
    let path ← optField ps pathKey (asListOf asText)
    let root_hash ← optField ps rootHashKey asText
    pure { name := name, length := length, piece_length := piece_length,
           pieces := pieces, files := files, «private» := priv,
           md5sum := md5sum, path := path, root_hash := root_hash }
  | _ => none

/-- Deserialization of Torrent (derive on src/torrent.rs lines 6-70): the
root must be a dictionary; info required, everything else optional or
defaulted. -/
def mapTorrent (v : Bencode) : Option Torrent :=
  match v with
  | .dict ps => do
    let announce ← optField ps announceKey asText
    let info ← reqField ps infoKey mapInfo
    let announce_list ← defField ps announceListKey (asListOf (asListOf asText)) []
    let nodes ← defField ps nodesKey (asListOf mapNode) []
    let creation_date ← optField ps creationDateKey asU64
    let comment ← optField ps commentKey asText
    let created_by ← optField ps createdByKey asText
    let encoding ← optField ps encodingKey asText
    pure { announce := announce, info := info, announce_list := announce_list,
           nodes := nodes, creation_date := creation_date, comment := comment,
           created_by := created_by, encoding := encoding }
  | _ => none

/-! ## Pipeline and request handler (src/main.rs) -/

/-- The serde_bencode end-to-end call of src/main.rs line 32: decode the
buffer, then map the tree onto the Torrent struct; any error is collapsed
to none by the ok()? in the handler. -/
def parseTorrent (buf : List Nat) : Option Torrent :=
  match decode buf with
  | .ok v => mapTorrent v
  | .error _ => none

/-- TorrentResponse (src/main.rs lines 14-19): exactly two variants, success
carrying the torrent and fail carrying one diagnostic string. -/
inductive TorrentResponse where
  | success : Torrent → TorrentResponse
  | fail : String → TorrentResponse

/-- The single diagnostic string of src/main.rs line 50. -/
def failMsg : String := "Failed to parse torrent"

/-- The replace call of src/main.rs line 36: every slash byte in the name is
substituted by the UTF-8 bytes of the fullwidth solidus. -/
def replaceSlash : List Nat → List Nat
  | [] => []
  | c :: r => if c = 47 then 239 :: 188 :: 143 :: replaceSlash r
              else c :: replaceSlash r

/-- Storage path of src/main.rs line 37. -/
def tmpKey (name : List Nat) : List Nat :=
  ascii ("/tmp/") ++ replaceSlash name ++ ascii (".torrent")

/-- The multipart loop of src/main.rs lines 27-46: walk the fields until one
is named file; a nameless field aborts, exhaustion aborts. -/
def findFile : List (Option (List Nat) × List Nat) → Option (List Nat)
  | [] => none
  | (none, _) :: _ => none
  | (some n, data) :: rest =>
    if n = ascii ("file") then some data else findFile rest

/-- The torrent handler of src/main.rs lines 25-52, with the filesystem
modelled as an association list of path and contents.  On parse success the
raw bytes are written under the sanitized name and the full torrent is
returned; on any failure nothing is written and the one fail message is
returned. -/
def torrent (parts : List (Option (List Nat) × List Nat))
    (fs : List (List Nat × List Nat)) :
    TorrentResponse × List (List Nat × List Nat) :=
  match findFile parts with
  | none => (.fail failMsg, fs)
  | some data =>
    match parseTorrent data with
    | none => (.fail failMsg, fs)
    | some t => (.success t, (tmpKey t.info.name, data) :: fs)

/-! ## Concrete inputs used in the claim theorems -/

/-- A well-formed single-file metainfo buffer: name a, piece length 1,
length 100, pieces of 20 bytes. -/
def bufValid : List Nat :=
  ascii ("d4:infod6:lengthi100e4:name1:a12:piece lengthi1e6:pieces20:AAAAAAAAAAAAAAAAAAAAee")

/-- The Info value the pipeline produces for bufValid. -/
def infoValid : Info :=
  { name := [97], length := some 100, piece_length := 1,
    pieces := List.replicate 20 65, files := none, «private» := none,
    md5sum := none, path := none, root_hash := none }

/-- The Torrent value the pipeline produces for bufValid. -/
def tValid : Torrent :=
  { announce := none, info := infoValid, announce_list := [], nodes := [],
    creation_date := none, comment := none, created_by := none, encoding := none }

/-- Like bufValid but the info dictionary carries both length and files. -/
def bufBoth : List Nat :=
  ascii ("d4:infod5:filesld6:lengthi1e4:pathl1:beee6:lengthi100e4:name1:a12:piece lengthi1e6:pieces20:AAAAAAAAAAAAAAAAAAAAee")

/-- Like bufValid but the info dictionary carries neither length nor files. -/
def bufNeither : List Nat :=
  ascii ("d4:infod4:name1:a12:piece lengthi1e6:pieces20:AAAAAAAAAAAAAAAAAAAAee")

/-- Like bufValid but with a pieces blob of 19 bytes. -/
def bufPieces19 : List Nat :=
  ascii ("d4:infod6:lengthi100e4:name1:a12:piece lengthi1e6:pieces19:AAAAAAAAAAAAAAAAAAAee")

/-- Like bufValid but with a pieces blob of 40 bytes. -/
def bufPieces40 : List Nat :=
  ascii ("d4:infod6:lengthi100e4:name1:a12:piece lengthi1e6:pieces40:AAAAAAAAAAAAAAAAAAAAAAAAAAAAAAAAAAAAAAAAee")

/-- Like bufValid but with piece length 0. -/
def bufPL0 : List Nat :=
  ascii ("d4:infod6:lengthi100e4:name1:a12:piece lengthi0e6:pieces20:AAAAAAAAAAAAAAAAAAAAee")

/-- Like bufValid but with piece length -3. -/
def bufPLneg : List Nat :=
  ascii ("d4:infod6:lengthi100e4:name1:a12:piece lengthi-3e6:pieces20:AAAAAAAAAAAAAAAAAAAAee")

/-- A multi-file buffer whose single file has an empty path list. -/
def bufEmptyPath : List Nat :=
  ascii ("d4:infod5:filesld6:lengthi1e4:pathleee4:name1:a12:piece lengthi1e6:pieces20:AAAAAAAAAAAAAAAAAAAAee")

/-- A multi-file buffer whose single file has one empty path segment. -/
def bufEmptySeg : List Nat :=
  ascii ("d4:infod5:filesld6:lengthi1e4:pathl0:eee4:name1:a12:piece lengthi1e6:pieces20:AAAAAAAAAAAAAAAAAAAAee")

/-- Like bufValid but with info-level length -5. -/
def bufNegLen : List Nat :=
  ascii ("d4:infod6:lengthi-5e4:name1:a12:piece lengthi1e6:pieces20:AAAAAAAAAAAAAAAAAAAAee")

/-- A multi-file buffer whose single file declares length -1. -/
def bufNegFileLen : List Nat :=
  ascii ("d4:infod5:filesld6:lengthi-1e4:pathl1:beee4:name1:a12:piece lengthi1e6:pieces20:AAAAAAAAAAAAAAAAAAAAee")

/-- Like bufValid but with creation date -1 at the top level. -/
def bufNegDate : List Nat :=
  ascii ("d13:creation datei-1e4:infod6:lengthi100e4:name1:a12:piece lengthi1e6:pieces20:AAAAAAAAAAAAAAAAAAAAee")

/-- Like bufValid but with private 256 in the info dictionary. -/
def bufPriv256 : List Nat :=
  ascii ("d4:infod6:lengthi100e4:name1:a12:piece lengthi1e6:pieces20:AAAAAAAAAAAAAAAAAAAA7:privatei256eee")

/-- A valid info tree at the generic-value level. -/
def validInfoTree : Bencode :=
  .dict [(lengthKey, .int 100), (nameKey, .str [97]),
         (pieceLengthKey, .int 1), (piecesKey, .str (List.replicate 20 65))]

/-! ## Decoder lemmas: success is stable under appending bytes, and deep
nesting fails.  These support the exact-boundary and nesting-cap claims. -/

theorem splitDigits_append (l ex : List Nat) (h : (splitDigits l).2 ≠ []) :
    splitDigits (l ++ ex) = ((splitDigits l).1, (splitDigits l).2 ++ ex) := by
  induction l with
  | nil => simp [splitDigits] at h
  | cons c t ih =>
    by_cases hc : isDigit c
    · simp only [List.cons_append, splitDigits, hc, if_true, List.append_eq] at h ⊢
      rw [ih h]
    · simp [List.cons_append, splitDigits, hc]

theorem parseIntBody_append (i ex : List Nat) (n : Int) (r : List Nat)
    (h : parseIntBody i = .ok (n, r)) :
    parseIntBody (i ++ ex) = .ok (n, r ++ ex) := by
  cases i with
  | nil => simp [parseIntBody] at h
  | cons c rest =>
    simp only [parseIntBody] at h
    by_cases h45 : c = 45
    · rw [if_pos h45] at h
      split at h
      · simp at h
      · simp at h
      · rename_i d0 ds e rest' hsd
        have hne : (splitDigits rest).2 ≠ [] := by rw [hsd]; simp
        have happ := splitDigits_append rest ex hne
        rw [hsd] at happ
        simp only [List.cons_append] at happ
        simp only [List.cons_append, parseIntBody, if_pos h45, happ]
        split_ifs at h with he hz
        obtain ⟨rfl, rfl⟩ := h
        simp [if_pos he, if_neg hz]
    · rw [if_neg h45] at h
      split at h
      · simp at h
      · simp at h
      · rename_i d0 ds e rest' hsd
        have hne : (splitDigits (c :: rest)).2 ≠ [] := by rw [hsd]; simp
        have happ := splitDigits_append (c :: rest) ex hne
        rw [hsd] at happ
        simp only [List.cons_append] at happ
        simp only [List.cons_append, parseIntBody, if_neg h45, happ]
        split_ifs at h with he hz
        obtain ⟨rfl, rfl⟩ := h
        simp [if_pos he, if_neg hz]

theorem parseStrTok_append (i ex : List Nat) (bs r : List Nat)
    (h : parseStrTok i = .ok (bs, r)) :
    parseStrTok (i ++ ex) = .ok (bs, r ++ ex) := by
  simp only [parseStrTok] at h
  split at h
  · simp at h
  · simp at h
  · rename_i ds c rest hds hsd
    cases ds with
    | nil => exact absurd rfl hds
    | cons d0 dt =>
      have hne : (splitDigits i).2 ≠ [] := by rw [hsd]; simp
      have happ := splitDigits_append i ex hne
      rw [hsd] at happ
      simp only [List.cons_append] at happ
      simp only [parseStrTok, happ]
      split_ifs at h with hc hl
      obtain ⟨rfl, rfl⟩ := h
      have hl' : digitsVal (d0 :: dt) ≤ (rest ++ ex).length := by
        simp only [List.length_append]
        omega
      rw [if_pos hc, if_pos hl', List.take_append_of_le_length hl,
          List.drop_append_of_le_length hl]

theorem parseItemsF_append
    (pv pv' : List Nat → Except DecodeError (Bencode × List Nat))
    (hpv : ∀ i ex v r, pv i = .ok (v, r) → pv' (i ++ ex) = .ok (v, r ++ ex)) :
    ∀ f f' i ex vs r, f ≤ f' → parseItemsF pv f i = .ok (vs, r) →
      parseItemsF pv' f' (i ++ ex) = .ok (vs, r ++ ex) := by
  intro f
  induction f with
  | zero =>
    intro f' i ex vs r _ h
    simp [parseItemsF] at h
  | succ f ih =>
    intro f' i ex vs r hf h
    cases f' with
    | zero => omega
    | succ f'' =>
      have hff : f ≤ f'' := by omega
      cases i with
      | nil => simp [parseItemsF] at h
      | cons c rest =>
        simp only [parseItemsF] at h
        simp only [List.cons_append, parseItemsF]
        by_cases hc : c = 101
        · rw [if_pos hc] at h ⊢
          obtain ⟨rfl, rfl⟩ := h
          rfl
        · rw [if_neg hc] at h ⊢
          split at h
          · rename_i v rest1 hpv0
            split at h
            · rename_i vs1 rest2 hit
              obtain ⟨rfl, rfl⟩ := h
              have hpv1 := hpv (c :: rest) ex v rest1 hpv0
              rw [List.cons_append] at hpv1
              have hit' := ih f'' rest1 ex vs1 _ hff hit
              simp only [hpv1, hit']
            · simp at h
          · simp at h

theorem parsePairsF_append
    (pv pv' : List Nat → Except DecodeError (Bencode × List Nat))
    (hpv : ∀ i ex v r, pv i = .ok (v, r) → pv' (i ++ ex) = .ok (v, r ++ ex)) :
    ∀ f f' i ex ps r, f ≤ f' → parsePairsF pv f i = .ok (ps, r) →
      parsePairsF pv' f' (i ++ ex) = .ok (ps, r ++ ex) := by
  intro f
  induction f with
  | zero =>
    intro f' i ex ps r _ h
    simp [parsePairsF] at h
  | succ f ih =>
    intro f' i ex ps r hf h
    cases f' with
    | zero => omega
    | succ f'' =>
      have hff : f ≤ f'' := by omega
      cases i with
      | nil => simp [parsePairsF] at h
      | cons c rest =>
        simp only [parsePairsF] at h
        simp only [List.cons_append, parsePairsF]
        by_cases hc : c = 101
        · rw [if_pos hc] at h ⊢
          obtain ⟨rfl, rfl⟩ := h
          rfl
        · rw [if_neg hc] at h ⊢
          split at h
          · rename_i key rest1 hkey
            split at h
            · rename_i v rest2 hpv0
              split at h
              · rename_i ps1 rest3 hps
                split_ifs at h with hdup
                obtain ⟨rfl, rfl⟩ := h
                have hkey' := parseStrTok_append (c :: rest) ex key rest1 hkey
                rw [List.cons_append] at hkey'
                have hpv1 := hpv rest1 ex v rest2 hpv0
                have hps' := ih f'' rest2 ex ps1 _ hff hps
                simp only [hkey', hpv1, hps', if_neg hdup]
              · simp at h
            · simp at h
          · simp at h

theorem parseValue_append :
    ∀ f f' d i ex v r, f ≤ f' → parseValue f d i = .ok (v, r) →
      parseValue f' d (i ++ ex) = .ok (v, r ++ ex) := by
  intro f
  induction f with
  | zero =>
    intro f' d i ex v r _ h
    simp [parseValue] at h
  | succ f ih =>
    intro f' d i ex v r hf h
    cases f' with
    | zero => omega
    | succ f'' =>
      have hff : f ≤ f'' := by omega
      have hpv : ∀ d2 i2 ex2 v2 r2, parseValue f (d2 : Nat) i2 = .ok (v2, r2) →
          parseValue f'' d2 (i2 ++ ex2) = .ok (v2, r2 ++ ex2) :=
        fun d2 i2 ex2 v2 r2 hh => ih f'' d2 i2 ex2 v2 r2 hff hh
      cases i with
      | nil => simp [parseValue] at h
      | cons c rest =>
        simp only [parseValue] at h
        simp only [List.cons_append, parseValue]
        by_cases hi : c = 105
        · rw [if_pos hi] at h ⊢
          split at h
          · rename_i n rest1 hib
            obtain ⟨rfl, rfl⟩ := h
            simp only [parseIntBody_append rest ex n _ hib]
          · simp at h
        · rw [if_neg hi] at h ⊢
          by_cases hl : c = 108
          · rw [if_pos hl] at h ⊢
            by_cases hd : 64 ≤ d
            · rw [if_pos hd] at h
              simp at h
            · rw [if_neg hd] at h ⊢
              split at h
              · rename_i vs rest1 hits
                obtain ⟨rfl, rfl⟩ := h
                have hits' := parseItemsF_append
                  (fun i2 => parseValue f (d + 1) i2)
                  (fun i2 => parseValue f'' (d + 1) i2)
                  (fun i2 ex2 v2 r2 hh => hpv (d + 1) i2 ex2 v2 r2 hh)
                  f f'' rest ex vs _ hff hits
                simp only [hits']
              · simp at h
          · rw [if_neg hl] at h ⊢
            by_cases hdd : c = 100
            · rw [if_pos hdd] at h ⊢
              by_cases hd : 64 ≤ d
              · rw [if_pos hd] at h
                simp at h
              · rw [if_neg hd] at h ⊢
                split at h
                · rename_i ps rest1 hps
                  obtain ⟨rfl, rfl⟩ := h
                  have hps' := parsePairsF_append
                    (fun i2 => parseValue f (d + 1) i2)
                    (fun i2 => parseValue f'' (d + 1) i2)
                    (fun i2 ex2 v2 r2 hh => hpv (d + 1) i2 ex2 v2 r2 hh)
                    f f'' rest ex ps _ hff hps
                  simp only [hps']
                · simp at h
            · rw [if_neg hdd] at h ⊢
              by_cases hdg : isDigit c = true
              · rw [if_pos hdg] at h ⊢
                split at h
                · rename_i bs rest1 hst
                  obtain ⟨rfl, rfl⟩ := h
                  have hst' := parseStrTok_append (c :: rest) ex bs _ hst
                  rw [List.cons_append] at hst'
                  simp only [hst']
                · simp at h
              · rw [if_neg hdg] at h
                simp at h

theorem decode_ok_parseValue (buf : List Nat) (v : Bencode) (h : decode buf = .ok v) :
    parseValue (2 * buf.length + 2) 0 buf = .ok (v, []) := by
  unfold decode at h
  split at h
  · rename_i v' hpv
    injection h with h'
    subst h'
    exact hpv
  · simp at h
  · simp at h

theorem decode_append_trailing (buf : List Nat) (v : Bencode) (b : Nat)
    (h : decode buf = .ok v) :
    decode (buf ++ [b]) = .error .trailingData := by
  have h0 := decode_ok_parseValue buf v h
  have h1 := parseValue_append (2 * buf.length + 2) (2 * (buf ++ [b]).length + 2) 0
    buf [b] v [] (by simp only [List.length_append]; omega) h0
  simp only [List.nil_append] at h1
  unfold decode
  rw [h1]

theorem parseValue_nested (j : Nat) : ∀ k m f, k + j = 64 → 64 - k < m → 2 * j + 2 ≤ f →
    parseValue f k (List.replicate m 108) = .error .nestingTooDeep := by
  induction j with
  | zero =>
    intro k m f hk hm hf
    have hk64 : k = 64 := by omega
    subst hk64
    cases m with
    | zero => omega
    | succ m1 =>
      cases f with
      | zero => omega
      | succ f1 =>
        simp only [List.replicate_succ, parseValue]
        rw [if_pos trivial, if_pos (le_refl 64), if_neg (by decide : ¬((108 : Nat) = 105))]
  | succ j ih =>
    intro k m f hk hm hf
    have hklt : ¬64 ≤ k := by omega
    cases m with
    | zero => omega
    | succ m1 =>
      cases f with
      | zero => omega
      | succ f1 =>
        simp only [List.replicate_succ, parseValue]
        rw [if_pos trivial, if_neg hklt]
        cases f1 with
        | zero => omega
        | succ f2 =>
          cases m1 with
          | zero => omega
          | succ m2 =>
            simp only [List.replicate_succ, parseItemsF]
            rw [if_neg (by decide : ¬((108 : Nat) = 105)),
                if_neg (by decide : ¬((108 : Nat) = 101))]
            have hrec := ih (k + 1) (m2 + 1) (f2 + 1) (by omega) (by omega) (by omega)
            rw [List.replicate_succ] at hrec
            rw [hrec]

theorem decode_nested (n : Nat) (h : 65 ≤ n) :
    decode (List.replicate n 108) = .error .nestingTooDeep := by
  unfold decode
  have hp := parseValue_nested 64 0 n (2 * (List.replicate n 108).length + 2)
    (by omega) (by omega) (by simp only [List.length_replicate]; omega)
  rw [hp]

/-! ## Expected pipeline outputs for the concrete inputs -/

/-- Torrent produced for bufBoth: both length and files are populated. -/
def tBoth : Torrent :=
  { tValid with
    info := { infoValid with
      files := some [{ length := 1, md5sum := none, path := [[98]] }] } }

/-- Torrent produced for bufNeither: length and files are both absent. -/
def tNeither : Torrent :=
  { tValid with
    info := { infoValid with
      length := none } }

/-- Torrent produced for bufPieces19. -/
def tPieces19 : Torrent :=
  { tValid with
    info := { infoValid with
      pieces := List.replicate 19 65 } }

/-- Torrent produced for bufPieces40. -/
def tPieces40 : Torrent :=
  { tValid with
    info := { infoValid with
      pieces := List.replicate 40 65 } }

/-- Torrent produced for bufPL0. -/
def tPL0 : Torrent :=
  { tValid with
    info := { infoValid with
      piece_length := 0 } }

/-- Torrent produced for bufPLneg. -/
def tPLneg : Torrent :=
  { tValid with
    info := { infoValid with
      piece_length := -3 } }

/-- Torrent produced for bufEmptyPath. -/
def tEmptyPath : Torrent :=
  { tValid with
    info := { infoValid with
      length := none,
      files := some [{ length := 1, md5sum := none, path := [] }] } }

/-- Torrent produced for bufEmptySeg. -/
def tEmptySeg : Torrent :=
  { tValid with
    info := { infoValid with
      length := none,
      files := some [{ length := 1, md5sum := none, path := [[]] }] } }

/-- Torrent produced for bufNegLen. -/
def tNegLen : Torrent :=
  { tValid with
    info := { infoValid with
      length := some (-5) } }

/-- The decoded generic tree of bufValid. -/
def vValid : Bencode :=
  .dict [(infoKey, .dict [(lengthKey, .int 100), (nameKey, .str [97]),
    (pieceLengthKey, .int 1), (piecesKey, .str (List.replicate 20 65))])]


/-! ## Claim theorems -/

/-- C1: contrary to the claim (and to the doc comments on the length and
files fields in src/torrent.rs), the code enforces no exclusivity between
the two keys: an info dictionary carrying both length and files is accepted
as Success, and so is one carrying neither; the two independent optional
fields are simply populated or left empty.  There is no AmbiguousLayout
error anywhere in the code. -/
theorem ambiguous_layout_accepted :
    parseTorrent bufBoth = some tBoth ∧ parseTorrent bufNeither = some tNeither ∧
    tBoth.info.length = some 100 ∧ tBoth.info.files.isSome = true ∧
    tNeither.info.length = none ∧ tNeither.info.files = none :=
  ⟨rfl, rfl, rfl, rfl, rfl, rfl⟩

/-- C2: contrary to the claim (and to the doc comment on the pieces field in
src/torrent.rs), the pieces blob's byte length is never checked: a 19-byte
pieces value is accepted as Success exactly like a 40-byte one. -/
theorem pieces_length_unchecked :
    parseTorrent bufPieces19 = some tPieces19 ∧
    tPieces19.info.pieces.length = 19 ∧
    parseTorrent bufPieces40 = some tPieces40 ∧
    tPieces40.info.pieces.length = 40 :=
  ⟨rfl, rfl, rfl, rfl⟩

/-- C3 counterexample: an otherwise well-formed input whose info dictionary
carries piece length 0 is accepted as Success, refuting the claim that
accepted torrents have strictly positive piece_length. -/
theorem piece_length_zero_accepted :
    parseTorrent bufPL0 = some tPL0 ∧ tPL0.info.piece_length = 0 :=
  ⟨rfl, rfl⟩

/-- C3 amended: piece_length is a plain signed 64-bit integer field with no
positivity check; inputs with zero or negative piece length are accepted as
Success carrying those values. -/
theorem piece_length_unchecked :
    parseTorrent bufPL0 = some tPL0 ∧ tPL0.info.piece_length = 0 ∧
    parseTorrent bufPLneg = some tPLneg ∧ tPLneg.info.piece_length = -3 :=
  ⟨rfl, rfl, rfl, rfl⟩

/-- C4: contrary to the claim (and to the doc comment on File.path in
src/torrent.rs, which calls a zero-length list an error case), file paths
are not validated: a file with an empty path list and a file with an empty
path segment are both accepted as Success. -/
theorem file_path_unvalidated :
    parseTorrent bufEmptyPath = some tEmptyPath ∧
    parseTorrent bufEmptySeg = some tEmptySeg ∧
    tEmptyPath.info.files = some [{ length := 1, md5sum := none, path := [] }] ∧
    tEmptySeg.info.files = some [{ length := 1, md5sum := none, path := [[]] }] :=
  ⟨rfl, rfl, rfl, rfl⟩

/-- C8 counterexample: an input whose info dictionary declares length -5 is
accepted as Success carrying the negative value, refuting the claim that all
declared length fields of accepted torrents are non-negative. -/
theorem negative_length_accepted :
    parseTorrent bufNegLen = some tNegLen ∧ tNegLen.info.length = some (-5) :=
  ⟨rfl, rfl⟩

/-- C8 amended: the sign discipline is split by type: the multi-file
File.length is u64, so any negative file length makes deserialization fail
and the whole input is rejected, but the info-level single-file length is a
plain i64 with no sign check and a negative value is accepted. -/
theorem length_sign_enforcement_split :
    (∀ n : Int, n < 0 →
      mapFile (.dict [(lengthKey, .int n), (pathKey, .list [.str [98]])]) = none) ∧
    parseTorrent bufNegFileLen = none ∧
    parseTorrent bufNegLen = some tNegLen := by
  refine ⟨?_, rfl, rfl⟩
  intro n hn
  have h1 : asU64 (.int n) = none := by
    simp only [asU64]
    rw [if_neg (by omega)]
  simp [mapFile, reqField, dictGet, h1]

/-- Witness for the amended C8, at file length -1. -/
theorem length_sign_enforcement_split_witness :
    mapFile (.dict [(lengthKey, .int (-1)), (pathKey, .list [.str [98]])]) = none :=
  length_sign_enforcement_split.1 (-1) (by omega)

/-- C6: container nesting depth is capped at 64: every input that is a run
of more than 64 unclosed list openings fails with NestingTooDeep instead of
recursing without bound.  The decoder is modelled from the spec, since the
decoding code lives in the serde_bencode crate outside this repository. -/
theorem nesting_depth_bounded (n : Nat) (h : 65 ≤ n) :
    decode (List.replicate n 108) = .error .nestingTooDeep :=
  decode_nested n h

/-- Witness for C6: one hundred nested list openings. -/
theorem nesting_depth_bounded_witness :
    decode (List.replicate 100 108) = .error .nestingTooDeep :=
  nesting_depth_bounded 100 (by omega)

/-- C5: decoding either consumes the entire buffer or fails: a successful
decode accounts for every byte of the buffer, and appending one extra
trailing byte to any buffer that decoded successfully turns the result into
a TrailingData error and the pipeline outcome into a rejection.  The decoder
is modelled from the spec, since the decoding code lives in the
serde_bencode crate outside this repository. -/
theorem decode_exact_boundary (buf : List Nat) (v : Bencode)
    (h : decode buf = .ok v) :
    parseValue (2 * buf.length + 2) 0 buf = .ok (v, []) ∧
    ∀ b, decode (buf ++ [b]) = .error .trailingData ∧
      parseTorrent (buf ++ [b]) = none := by
  refine ⟨decode_ok_parseValue buf v h, fun b => ⟨decode_append_trailing buf v b h, ?_⟩⟩
  unfold parseTorrent
  rw [decode_append_trailing buf v b h]

/-- Witness for C5 at the concrete valid single-file buffer. -/
theorem decode_exact_boundary_witness :
    decode bufValid = .ok vValid ∧
    decode (bufValid ++ [48]) = .error .trailingData ∧
    parseTorrent (bufValid ++ [48]) = none :=
  ⟨rfl, (decode_exact_boundary bufValid vValid rfl).2 48⟩

/-- C7: the handler's boundary response is exactly one of two shapes: the
success shape carrying the full parsed Torrent, or the fail shape carrying
the single diagnostic string; nothing else is ever produced. -/
theorem response_exactly_two_shapes (parts : List (Option (List Nat) × List Nat))
    (fs : List (List Nat × List Nat)) :
    (∃ data t, findFile parts = some data ∧ parseTorrent data = some t ∧
      (torrent parts fs).1 = .success t) ∨
    (torrent parts fs).1 = .fail failMsg := by
  unfold torrent
  cases hff : findFile parts with
  | none => right; rfl
  | some data =>
    cases hpt : parseTorrent data with
    | none => right; simp [hpt]
    | some t =>
      left
      exact ⟨data, t, rfl, hpt, by simp [hpt]⟩

/-- The slash substitution removes every path-separator byte, so the
sanitized name is a single path segment. -/
theorem replaceSlash_no_slash (bs : List Nat) : 47 ∉ replaceSlash bs := by
  induction bs with
  | nil => simp [replaceSlash]
  | cons c r ih =>
    by_cases hc : c = 47
    · subst hc
      simp only [replaceSlash, if_true]
      intro hmem
      simp only [List.mem_cons] at hmem
      rcases hmem with h | h | h | h
      · omega
      · omega
      · omega
      · exact ih h
    · simp only [replaceSlash, if_neg hc]
      intro hmem
      simp only [List.mem_cons] at hmem
      rcases hmem with h | h
      · exact hc h.symm
      · exact ih h

/-- C9: the raw upload bytes are persisted exactly when the pipeline
succeeds: on a success response the exact uploaded buffer is written under
the key derived from the torrent's display name with every slash
substituted (so the name part stays a single path segment), and on a fail
response the store is unchanged. -/
theorem upload_persisted_iff_success (parts : List (Option (List Nat) × List Nat))
    (fs : List (List Nat × List Nat)) :
    (∀ t, (torrent parts fs).1 = .success t →
      ∃ data, findFile parts = some data ∧ parseTorrent data = some t ∧
        (torrent parts fs).2 = (tmpKey t.info.name, data) :: fs ∧
        47 ∉ replaceSlash t.info.name) ∧
    (∀ s, (torrent parts fs).1 = .fail s → (torrent parts fs).2 = fs) := by
  unfold torrent
  cases hff : findFile parts with
  | none =>
    refine ⟨fun t ht => ?_, fun s _ => rfl⟩
    simp at ht
  | some data =>
    cases hpt : parseTorrent data with
    | none =>
      refine ⟨fun t ht => ?_, fun s _ => by simp [hpt]⟩
      simp [hpt] at ht
    | some t0 =>
      refine ⟨fun t ht => ?_, fun s hs => ?_⟩
      · simp [hpt] at ht
        subst ht
        exact ⟨data, rfl, hpt, by simp [hpt], replaceSlash_no_slash _⟩
      · simp [hpt] at hs

/-- Witness for C9: uploading the valid buffer writes exactly one entry,
keyed by the sanitized name, holding the original bytes. -/
theorem upload_persisted_iff_success_witness :
    (torrent [(some (ascii ("file")), bufValid)] []).2 = [(tmpKey [97], bufValid)] := by
  obtain ⟨data, hd, hp, hfs, hns⟩ :=
    (upload_persisted_iff_success [(some (ascii ("file")), bufValid)] []).1 tValid rfl
  have hdata : bufValid = data := by
    have h0 : findFile [(some (ascii ("file")), bufValid)] = some bufValid := rfl
    rw [h0] at hd
    injection hd
  subst hdata
  rw [hfs]
  rfl

/-- C10: numeric fields have type-enforced ranges: a negative creation date
fails u64 deserialization, a private value outside 0..255 fails u8
deserialization, and a negative file length fails u64 deserialization; in
each case the whole mapping (and hence the pipeline) rejects the input
instead of clamping or wrapping the value. -/
theorem numeric_field_ranges_enforced :
    (∀ n : Int, n < 0 →
      mapTorrent (.dict [(creationDateKey, .int n), (infoKey, validInfoTree)]) = none) ∧
    (∀ n : Int, n < 0 ∨ 255 < n →
      mapInfo (.dict [(privateKey, .int n), (lengthKey, .int 100), (nameKey, .str [97]),
        (pieceLengthKey, .int 1), (piecesKey, .str (List.replicate 20 65))]) = none) ∧
    (∀ n : Int, n < 0 →
      asU64 (.int n) = none ∧
      mapFile (.dict [(lengthKey, .int n), (pathKey, .list [.str [98]])]) = none) ∧
    parseTorrent bufNegDate = none ∧ parseTorrent bufPriv256 = none ∧
    parseTorrent bufNegFileLen = none := by
  have hu64 : ∀ n : Int, n < 0 → asU64 (.int n) = none := by
    intro n hn
    simp only [asU64]
    rw [if_neg (by omega)]
  have hu8 : ∀ n : Int, n < 0 ∨ 255 < n → asU8 (.int n) = none := by
    intro n hn
    simp only [asU8]
    rw [if_neg (by omega)]
  refine ⟨?_, ?_, ?_, rfl, rfl, rfl⟩
  · intro n hn
    simp [mapTorrent, mapInfo, reqField, optField, defField, dictGet, asText, asI64,
      asBytes, validInfoTree, hu64 n hn]
  · intro n hn
    simp [mapInfo, reqField, optField, dictGet, asText, asI64, asBytes, hu8 n hn]
  · intro n hn
    refine ⟨hu64 n hn, ?_⟩
    simp [mapFile, reqField, dictGet, hu64 n hn]

/-- Witness for C10 at creation date -1, private 256 and file length -2. -/
theorem numeric_field_ranges_enforced_witness :
    mapTorrent (.dict [(creationDateKey, .int (-1)), (infoKey, validInfoTree)]) = none ∧
    mapInfo (.dict [(privateKey, .int 256), (lengthKey, .int 100), (nameKey, .str [97]),
      (pieceLengthKey, .int 1), (piecesKey, .str (List.replicate 20 65))]) = none ∧
    mapFile (.dict [(lengthKey, .int (-2)), (pathKey, .list [.str [98]])]) = none :=
  ⟨numeric_field_ranges_enforced.1 (-1) (by omega),
   numeric_field_ranges_enforced.2.1 256 (Or.inr (by omega)),
   (numeric_field_ranges_enforced.2.2.1 (-2) (by omega)).2⟩
